import Mathlib

/-
Verification development for the get-or-compute core of the bentocache
two-tier caching library.

The authoritative source is src/src/cache/get_set_handler.ts
(class GetSetHandler).  Its collaborators — CacheItem, CacheItemOptions,
Locks, CacheStackWriter, FactoryRunner and CacheStack — are not part of
the provided sources; where the development needs them they are modelled
from the specification (spec.md §3, §4.1–§4.3, §4.5, §7), and each such
definition carries a doc comment starting with the words
"Modelled from the spec".

A single execution of GetSetHandler.handle is embedded as a pure function
from an environment (the outcome of every suspension point: driver reads
and writes, lock acquisition, the factory) to a pair of
  - a trace of observable effects, in program order, and
  - a result (the returned value, or the error the call rejects with).
Promise rejection is modelled with Except; the trace records lock
acquisitions and releaser invocations, tier writes, event emissions,
the factory run and the spawning of the early-refresh task.

For the stampede-prevention claim a second, operational model interleaves
n concurrent handle executions over shared L1/L2 stores and the per-key
lock, at the granularity of the suspension points of the source.
-/

namespace Bentocache

/-- Error kinds of the core protocol, following spec.md §7.  Factory
errors carry a numeric payload so that distinct factory failures stay
distinguishable; driver errors likewise. -/
inductive CacheError where
  | lockTimeout
  | factorySoftTimeout
  | factoryHardTimeout
  | factoryError (payload : Nat)
  | driverError (payload : Nat)
deriving DecidableEq, Repr

/-- Modelled from the spec: CacheItem (spec.md §3) — one record in either
tier: an opaque payload plus logical/physical expiry metadata and an
optional early-expiration timestamp.  The payload is an opaque Nat,
timestamps are Nat instants.  The class itself
(src/cache/cache_item/cache_item.ts) is not among the provided sources. -/
structure CacheItem where
  value : Nat
  logicalExpiresAt : Nat
  physicalExpiresAt : Nat
  earlyExpirationAt : Option Nat
deriving DecidableEq, Repr

namespace CacheItem

/-- Modelled from the spec: isLogicallyExpired ≡ now ≥ logicalExpiresAt
(spec.md §3). -/
def isLogicallyExpired (it : CacheItem) (now : Nat) : Bool :=
  it.logicalExpiresAt ≤ now

/-- Modelled from the spec: isEarlyExpired ≡ earlyExpirationAt ≠ ∅ ∧
now ≥ earlyExpirationAt ∧ ¬isLogicallyExpired (spec.md §3). -/
def isEarlyExpired (it : CacheItem) (now : Nat) : Bool :=
  match it.earlyExpirationAt with
  | none => false
  | some e => decide (e ≤ now) && ! it.isLogicallyExpired now

/-- Modelled from the spec: getValue returns the opaque payload. -/
def getValue (it : CacheItem) : Nat :=
  it.value

/-- Modelled from the spec: applyFallbackDuration returns a new item whose
logical expiry is extended by the fallback duration (spec.md §4.4 Stage F;
scenario 4 of §8 pins the extended logical expiry to now + fallbackDuration).
The physical expiry may be bumped likewise, keeping physical ≥ logical. -/
def applyFallbackDuration (it : CacheItem) (now d : Nat) : CacheItem :=
  { it with
    logicalExpiresAt := now + d
    physicalExpiresAt := max it.physicalExpiresAt (now + d) }

end CacheItem

/-- Modelled from the spec: the gracePeriod option bundle
{ enabled, duration, fallbackDuration } (spec.md §3). -/
structure GracePeriodOptions where
  enabled : Bool
  duration : Nat
  fallbackDuration : Option Nat
deriving DecidableEq, Repr

/-- Modelled from the spec: CacheItemOptions (spec.md §3) — the immutable
per-call bundle.  Timeouts are Option Nat, none meaning unset/∞.  The
class (src/cache/cache_item/cache_item_options.ts) is not among the
provided sources. -/
structure CacheItemOptions where
  ttl : Nat
  earlyExpirationPercentage : Nat
  gracePeriod : GracePeriodOptions
  softTimeout : Option Nat
  hardTimeout : Option Nat
deriving DecidableEq, Repr

namespace CacheItemOptions

/-- Modelled from the spec: isGracePeriodEnabled mirrors
gracePeriod.enabled. -/
def isGracePeriodEnabled (o : CacheItemOptions) : Bool :=
  o.gracePeriod.enabled

/-- Modelled from the spec: getApplicableLockTimeout returns the soft
timeout when a fallback value exists and grace is enabled, otherwise the
hard timeout or ∞ (spec.md §3). -/
def getApplicableLockTimeout (o : CacheItemOptions) (hasFallback : Bool) : Option Nat :=
  if hasFallback && o.gracePeriod.enabled && o.softTimeout.isSome then
    o.softTimeout
  else
    o.hardTimeout

end CacheItemOptions

/-- Observable effects of one handle execution, in program order.
emitCacheHit records the value and the graced/stale flag of the
CacheHit event; releaseLock records one invocation of the per-key
releaser; l1Set and l2Set record the item written to the tier. -/
inductive Effect where
  | l1Get
  | l2Get
  | acquireLock (timeout : Option Nat)
  | releaseLock
  | l1Set (item : CacheItem)
  | l2Set (item : CacheItem)
  | runFactory
  | spawnEarlyRefresh
  | emitCacheHit (value : Nat) (graced : Bool)
  | logError
deriving DecidableEq, Repr

instance exceptDecEq {ε α : Type} [DecidableEq ε] [DecidableEq α] :
    DecidableEq (Except ε α)
  | .ok a, .ok b =>
    if h : a = b then .isTrue (by rw [h]) else .isFalse (by simp [h])
  | .ok _, .error _ => .isFalse (by simp)
  | .error _, .ok _ => .isFalse (by simp)
  | .error e, .error f =>
    if h : e = f then .isTrue (by rw [h]) else .isFalse (by simp [h])

/-- Behaviour of the user factory during one run, as the factory runner
observes it: it either completes before the soft deadline (fast) or
exceeds the soft deadline and completes eventually (slow), in both cases
either with a value or with an error payload.  Factories that exceed the
hard deadline are outside the scope of the claims under study. -/
inductive FactoryBehavior where
  | fast (result : Except Nat Nat)
  | slow (result : Except Nat Nat)
deriving DecidableEq, Repr

/-- Environment of one handle execution: the outcome of every suspension
point.  Per spec.md §7 L1 driver errors are propagated, so the L1 read and
write outcomes are Except; a failing L1 write carries only a driver-error
payload, since tier drivers fail with driver errors; L2 read errors are
treated as a miss by the stack, so the L2 read yields only Option; L2
write failures are non-fatal and only logged, so only their success bit
is kept. -/
structure HandleEnv where
  now : Nat
  l1Read1 : Except CacheError (Option CacheItem)
  acquire : Except CacheError Unit
  l1Read2 : Except CacheError (Option CacheItem)
  l2Read : Option CacheItem
  l1Write : Except Nat Unit
  l2WriteOk : Bool
  factory : FactoryBehavior
deriving Repr

/-- Modelled from the spec: the CacheItem a write-through constructs from
a value and the options (spec.md §4.2 and §3): the logical expiry follows
the ttl, the physical expiry additionally covers the grace window, and the
early-expiration timestamp derives from earlyExpirationPercentage. -/
def createItem (now v : Nat) (o : CacheItemOptions) : CacheItem :=
  { value := v
    logicalExpiresAt := now + o.ttl
    physicalExpiresAt :=
      now + o.ttl + (if o.gracePeriod.enabled then o.gracePeriod.duration else 0)
    earlyExpirationAt :=
      if 0 < o.earlyExpirationPercentage then
        some (now + o.ttl * o.earlyExpirationPercentage / 100)
      else
        none }

/-- Modelled from the spec: CacheStackWriter.set (spec.md §4.2) —
construct the item, write L2 first (a failure there is logged and must
not prevent the L1 write), then write L1 (a failure there is fatal to the
write). -/
def cacheStackWriterSet (now : Nat) (l2WriteOk : Bool)
    (l1Write : Except Nat Unit) (v : Nat) (o : CacheItemOptions) :
    List Effect × Except CacheError Unit :=
  let it := createItem now v o
  let l2fx := Effect.l2Set it :: (if l2WriteOk then [] else [Effect.logError])
  match l1Write with
  | .error n => (l2fx ++ [Effect.l1Set it], .error (.driverError n))
  | .ok _ => (l2fx ++ [Effect.l1Set it], .ok ())

/-- Modelled from the spec: FactoryRunner.run (spec.md §4.3), called with
the per-key lock held.  The soft timeout fires only when it is configured
AND a fallback value exists AND grace is enabled; it then fails with
FactorySoftTimeout immediately, leaving the factory (and the lock) to the
background continuation, so no releaser invocation appears in this
execution's trace on that path.  On normal completion the runner writes
through and releases; when the factory throws, the runner releases and
rethrows (classified FactoryError); a fatal write-through failure likewise
releases before propagating, per invariant 2 of spec.md §8. -/
def factoryRunnerRun (env : HandleEnv) (hasFallback : Bool)
    (o : CacheItemOptions) : List Effect × Except CacheError Nat :=
  let complete : Except Nat Nat → List Effect × Except CacheError Nat :=
    fun r =>
      match r with
      | .ok v =>
        let (w, res) := cacheStackWriterSet env.now env.l2WriteOk env.l1Write v o
        match res with
        | .ok _ => (Effect.runFactory :: w ++ [Effect.releaseLock], .ok v)
        | .error e => (Effect.runFactory :: w ++ [Effect.releaseLock], .error e)
      | .error n =>
        ([Effect.runFactory, Effect.releaseLock], .error (.factoryError n))
  match env.factory with
  | .fast r => complete r
  | .slow r =>
    if o.softTimeout.isSome && hasFallback && o.gracePeriod.enabled then
      ([Effect.runFactory], .error .factorySoftTimeout)
    else
      complete r

namespace GetSetHandler

/-- Embeds the nullish coalescing of the source expression
staleItem = remoteItem ?? localItem (source line 223). -/
def staleItemOf (remoteItem localItem : Option CacheItem) : Option CacheItem :=
  match remoteItem with
  | some r => some r
  | none => localItem

/-- Embeds GetSetHandler.#isItemValid: the item is defined and not
logically expired. -/
def isItemValid (now : Nat) : Option CacheItem → Bool
  | none => false
  | some it => ! it.isLogicallyExpired now

/-- Embeds GetSetHandler.#returnLocalCacheValue: emit a CacheHit whose
graced flag is the item's isLogicallyExpired, return the value. -/
def returnLocalCacheValue (now : Nat) (it : CacheItem) :
    List Effect × Except CacheError Nat :=
  ([Effect.emitCacheHit it.getValue (it.isLogicallyExpired now)], .ok it.getValue)

/-- Embeds GetSetHandler.#returnRemoteCacheValue: write the item to L1,
then emit a CacheHit with the default (false) graced flag and return the
value; a failing L1 write rejects after the write attempt. -/
def returnRemoteCacheValue (env : HandleEnv) (it : CacheItem) :
    List Effect × Except CacheError Nat :=
  match env.l1Write with
  | .error n => ([Effect.l1Set it], .error (.driverError n))
  | .ok _ =>
    ([Effect.l1Set it, Effect.emitCacheHit it.getValue false], .ok it.getValue)

/-- Embeds GetSetHandler.#returnGracedValueOrThrow: when the grace period
is enabled and the item is defined, return it as a local cache hit,
otherwise throw the given error. -/
def returnGracedValueOrThrow (now : Nat) (item : Option CacheItem)
    (o : CacheItemOptions) (err : CacheError) :
    List Effect × Except CacheError Nat :=
  match item, o.isGracePeriodEnabled with
  | some it, true => returnLocalCacheValue now it
  | _, _ => ([], .error err)

/-- Embeds GetSetHandler.#applyFallbackAndReturnGracedValue: when grace is
enabled and a fallbackDuration is set, rewrite the item into L1 with the
fallback duration applied (a failing L1 write rejects here), then emit a
graced CacheHit and return the stale value. -/
def applyFallbackAndReturnGracedValue (env : HandleEnv) (it : CacheItem)
    (o : CacheItemOptions) : List Effect × Except CacheError Nat :=
  match o.gracePeriod.enabled, o.gracePeriod.fallbackDuration with
  | true, some d =>
    let written := it.applyFallbackDuration env.now d
    match env.l1Write with
    | .error n => ([Effect.l1Set written], .error (.driverError n))
    | .ok _ =>
      ([Effect.l1Set written, Effect.emitCacheHit it.getValue true], .ok it.getValue)
  | _, _ =>
    ([Effect.emitCacheHit it.getValue true], .ok it.getValue)

/-- Embeds the Stage E portion of GetSetHandler.handle (the try/catch
around factoryRunner.run, source lines 204–231): on FactorySoftTimeout
with a defined localItem, fall back to returnGracedValueOrThrow; on any
other error compute staleItem = remoteItem ?? localItem and, when it is
defined and grace is enabled, release the lock and apply the fallback,
otherwise release the lock and rethrow.  localItem is the value of the
re-read under the lock (the source reassigns the variable). -/
def handleStageE (env : HandleEnv) (o : CacheItemOptions)
    (localItem remoteItem : Option CacheItem) :
    List Effect × Except CacheError Nat :=
  let (fx, r) := factoryRunnerRun env localItem.isSome o
  match r with
  | .ok v => (fx, .ok v)
  | .error e =>
    if decide (e = CacheError.factorySoftTimeout) && localItem.isSome then
      let (fx2, r2) := returnGracedValueOrThrow env.now localItem o e
      (fx ++ fx2, r2)
    else
      let staleItem := staleItemOf remoteItem localItem
      match staleItem, o.isGracePeriodEnabled with
      | some st, true =>
        let (fx2, r2) := applyFallbackAndReturnGracedValue env st o
        (fx ++ Effect.releaseLock :: fx2, r2)
      | _, _ => (fx ++ [Effect.releaseLock], .error e)

/-- Embeds the Stage D portion of GetSetHandler.handle (source lines
198–202): read L2; when the remote item is valid, release the lock and
return it through returnRemoteCacheValue (so the releaser is invoked
before the L1 copy is written), otherwise go on to Stage E. -/
def handleStageD (env : HandleEnv) (o : CacheItemOptions)
    (localItem : Option CacheItem) : List Effect × Except CacheError Nat :=
  let remoteItem := env.l2Read
  match remoteItem, isItemValid env.now remoteItem with
  | some it, true =>
    let (fx, r) := returnRemoteCacheValue env it
    (Effect.l2Get :: Effect.releaseLock :: fx, r)
  | _, _ =>
    let (fx, r) := handleStageE env o localItem remoteItem
    (Effect.l2Get :: fx, r)

/-- Embeds the Stage C portion of GetSetHandler.handle (source lines
187–202), entered with the lock held: re-read L1 — an error of that read
propagates out of handle with no releaser invocation, exactly as in the
source, where no try/finally protects this region; when the re-read item
is valid, release and return it; otherwise go on to Stage D. -/
def handleLocked (env : HandleEnv) (o : CacheItemOptions) :
    List Effect × Except CacheError Nat :=
  match env.l1Read2 with
  | .error e => ([Effect.l1Get], .error e)
  | .ok localItem =>
    match localItem, isItemValid env.now localItem with
    | some it, true =>
      let (fx, r) := returnLocalCacheValue env.now it
      (Effect.l1Get :: Effect.releaseLock :: fx, r)
    | _, _ =>
      let (fx, r) := handleStageD env o localItem
      (Effect.l1Get :: fx, r)

/-- Embeds the Stage B portion of GetSetHandler.handle (source lines
174–181): acquire the per-key lock with the applicable timeout, falling
back to returnGracedValueOrThrow on any acquisition error (the catch is
not restricted to timeouts), and continue under the lock on success. -/
def handleAfterStageA (env : HandleEnv) (o : CacheItemOptions)
    (localItem0 : Option CacheItem) : List Effect × Except CacheError Nat :=
  let tmo := o.getApplicableLockTimeout localItem0.isSome
  match env.acquire with
  | .error e =>
    let (fx, r) := returnGracedValueOrThrow env.now localItem0 o e
    (Effect.acquireLock tmo :: fx, r)
  | .ok _ =>
    let (fx, r) := handleLocked env o
    (Effect.acquireLock tmo :: fx, r)

/-- Embeds GetSetHandler.handle (source lines 154–232): the optimistic L1
read; on a valid item, spawn the early refresh when the item is early
expired (without awaiting it) and return the local value; otherwise fall
through to the lock acquisition and the later stages. -/
def handle (env : HandleEnv) (o : CacheItemOptions) :
    List Effect × Except CacheError Nat :=
  match env.l1Read1 with
  | .error e => ([Effect.l1Get], .error e)
  | .ok localItem0 =>
    match localItem0, isItemValid env.now localItem0 with
    | some it, true =>
      let spawn := if it.isEarlyExpired env.now then [Effect.spawnEarlyRefresh] else []
      let (fx, r) := returnLocalCacheValue env.now it
      (Effect.l1Get :: (spawn ++ fx), r)
    | _, _ =>
      let (fx, r) := handleAfterStageA env o localItem0
      (Effect.l1Get :: fx, r)

end GetSetHandler

/-- Environment of one early-refresh execution: whether the probe finds
the per-key lock already taken, the factory outcome, and the write-through
outcomes. -/
structure RefreshEnv where
  now : Nat
  isLocked : Bool
  factory : Except Nat Nat
  l2WriteOk : Bool
  l1Write : Except Nat Unit
deriving Repr

namespace GetSetHandler

/-- Embeds GetSetHandler.#earlyExpirationRefresh (source lines 46–73):
when the lock is already taken, return at once; otherwise run the factory
and the write-through exclusively (runExclusive releases the lock whether
or not the body throws), and on any error from the body log it AND
rethrow it — the catch handler of the source ends in a throw, so the
promise of the refresh rejects. -/
def earlyExpirationRefresh (renv : RefreshEnv) (o : CacheItemOptions) :
    List Effect × Except CacheError Unit :=
  if renv.isLocked then
    ([], .ok ())
  else
    match renv.factory with
    | .error n =>
      ([Effect.acquireLock none, Effect.runFactory, Effect.releaseLock,
        Effect.logError], .error (.factoryError n))
    | .ok v =>
      let (w, res) := cacheStackWriterSet renv.now renv.l2WriteOk renv.l1Write v o
      match res with
      | .ok _ =>
        (Effect.acquireLock none :: Effect.runFactory :: w ++ [Effect.releaseLock],
         .ok ())
      | .error e =>
        (Effect.acquireLock none :: Effect.runFactory :: w ++
          [Effect.releaseLock, Effect.logError], .error e)

end GetSetHandler

/-- Trace predicate: the effect is a write to L1 (of any item). -/
def isL1SetEffect : Effect → Bool
  | .l1Set _ => true
  | _ => false

/-- Trace predicate: the effect is a write to L2 (of any item). -/
def isL2SetEffect : Effect → Bool
  | .l2Set _ => true
  | _ => false

/-- Number of releaser invocations recorded in a trace. -/
def releaserInvocations : List Effect → Nat
  | [] => 0
  | Effect.releaseLock :: rest => releaserInvocations rest + 1
  | _ :: rest => releaserInvocations rest

/-- Number of lock acquisitions recorded in a trace. -/
def acquisitions : List Effect → Nat
  | [] => 0
  | Effect.acquireLock _ :: rest => acquisitions rest + 1
  | _ :: rest => acquisitions rest

/-- Number of L1 writes recorded in a trace. -/
def l1Writes (tr : List Effect) : Nat :=
  tr.countP isL1SetEffect

/-- Number of L2 writes recorded in a trace. -/
def l2Writes (tr : List Effect) : Nat :=
  tr.countP isL2SetEffect

/-- Holds when some releaser invocation occurs strictly before some L1
write in the trace: the lock was (at least once) released before an L1
write that comes later in program order. -/
def l1SetAfterRelease : List Effect → Bool
  | [] => false
  | Effect.releaseLock :: rest => rest.any isL1SetEffect || l1SetAfterRelease rest
  | _ :: rest => l1SetAfterRelease rest

/-
Concrete fixtures used by the closed counterexample and witness theorems.
The instant of every environment below is now = 10.
-/

/-- Options of the end-to-end scenarios of spec.md §8: ttl 1000, grace
enabled with duration 5000 and fallbackDuration 2000, soft timeout 100,
hard timeout 500, early expiration percentage 80. -/
def optsDefault : CacheItemOptions :=
  { ttl := 1000
    earlyExpirationPercentage := 80
    gracePeriod := { enabled := true, duration := 5000, fallbackDuration := some 2000 }
    softTimeout := some 100
    hardTimeout := some 500 }

/-- The same options with the grace period disabled. -/
def optsNoGrace : CacheItemOptions :=
  { optsDefault with
    gracePeriod := { enabled := false, duration := 5000, fallbackDuration := some 2000 } }

/-- A stale item: present but logically expired at instant 10. -/
def itemStale : CacheItem :=
  { value := 1, logicalExpiresAt := 5, physicalExpiresAt := 500, earlyExpirationAt := none }

/-- A fresh item that is early expired at instant 10 but not logically
expired. -/
def itemFresh : CacheItem :=
  { value := 5, logicalExpiresAt := 100, physicalExpiresAt := 200, earlyExpirationAt := some 2 }

/-- A valid remote item at instant 10. -/
def itemRemote : CacheItem :=
  { value := 9, logicalExpiresAt := 100, physicalExpiresAt := 200, earlyExpirationAt := none }

/-- A cold-miss environment: both tiers empty, lock acquired, factory
fast and successful. -/
def envColdMiss : HandleEnv :=
  { now := 10, l1Read1 := .ok none, acquire := .ok (), l1Read2 := .ok none,
    l2Read := none, l1Write := .ok (), l2WriteOk := true, factory := .fast (.ok 42) }

/-- An environment whose L1 re-read under the lock fails with a driver
error. -/
def envRereadError : HandleEnv :=
  { envColdMiss with l1Read2 := .error (.driverError 0) }

/-- An environment with an empty L1 and a valid remote item. -/
def envRemoteHit : HandleEnv :=
  { envColdMiss with l2Read := some itemRemote }

/-- An environment where no L1 item exists before the lock, the re-read
under the lock finds a stale item written meanwhile, and the factory
exceeds its soft deadline. -/
def envSoftTimeout : HandleEnv :=
  { envColdMiss with l1Read2 := .ok (some itemStale), factory := .slow (.ok 42) }

/-- An environment where the re-read finds a stale item and the factory
throws. -/
def envFactoryError : HandleEnv :=
  { envColdMiss with l1Read2 := .ok (some itemStale), factory := .fast (.error 3) }

/-- An environment where a stale local item exists and the lock
acquisition times out. -/
def envLockTimeout : HandleEnv :=
  { envColdMiss with l1Read1 := .ok (some itemStale), acquire := .error .lockTimeout }

/-- An environment where a stale local item exists and the lock
acquisition fails with an error that is not a timeout. -/
def envAcquireError : HandleEnv :=
  { envColdMiss with l1Read1 := .ok (some itemStale), acquire := .error (.driverError 5) }

/-- An environment whose initial L1 read finds a fresh early-expired
item. -/
def envLocalHit : HandleEnv :=
  { envColdMiss with l1Read1 := .ok (some itemFresh) }

/-- A refresh environment whose probe finds the lock free and whose
factory throws. -/
def renvFactoryError : RefreshEnv :=
  { now := 10, isLocked := false, factory := .error 7, l2WriteOk := true, l1Write := .ok () }

/-
Operational model of n concurrent handle executions for the stampede
claim.  It instantiates the cold-miss scenario of spec.md §8 (scenario 2):
both tiers start empty, every caller runs the same factory, which
succeeds with the value v, no driver call fails and no timeout fires, and
the instant is frozen, so every written item is valid while the system
runs and tier contents reduce to their payloads.  Each task executes the
suspension points of GetSetHandler.handle in source order; the per-key
lock is the process-local mutex of the Locks registry (spec.md §4.1: at
most one holder per key at any instant).
-/

/-- Program counter of one task of the concurrent model, one constructor
per suspension point of GetSetHandler.handle:
start — about to perform the optimistic L1 read (source line 162);
acquiring — waiting in the lock acquisition (line 176);
reread — holding the lock, about to re-read L1 (line 187);
checkL2 — holding the lock, about to read L2 (line 198);
l1copy w — lock already released (line 200), about to copy the remote
value w into L1 (line 94);
factoryRunning — factory invoked by the runner, result pending;
writeL2 — factory finished, about to write L2 (write-through order of
spec.md §4.2);
writeL1 — about to write L1;
releasing w — about to invoke the releaser and return w;
done w — the call returned w. -/
inductive TaskPC where
  | start
  | acquiring
  | reread
  | checkL2
  | l1copy (w : Nat)
  | factoryRunning
  | writeL2
  | writeL1
  | releasing (w : Nat)
  | done (w : Nat)
deriving DecidableEq, Repr

namespace TaskPC

/-- Program counters at which the task holds the per-key lock.  The
l1copy state does not hold it: the source releases before the L1 copy. -/
def holdsLock : TaskPC → Bool
  | .reread | .checkL2 | .factoryRunning | .writeL2 | .writeL1 | .releasing _ => true
  | _ => false

/-- Program counters a task can occupy before any factory has run. -/
def preFactory : TaskPC → Bool
  | .start | .acquiring | .reread | .checkL2 => true
  | _ => false

/-- Program counters between a factory invocation and the L2 write: while
a task is here, the factory result is not yet visible in L2. -/
def factoryPending : TaskPC → Bool
  | .factoryRunning | .writeL2 => true
  | _ => false

end TaskPC

/-- Shared state of the concurrent model: the per-key lock with its
holder, the two tiers (payload of the item, if present), the program
counter of every task, and the number of foreground factory invocations
so far. -/
structure SysState (n : Nat) where
  lock : Option (Fin n)
  l1 : Option Nat
  l2 : Option Nat
  tasks : Fin n → TaskPC
  factoryCount : Nat

/-- Replaces the program counter of one task. -/
def SysState.setTask {n : Nat} (s : SysState n) (t : Fin n) (pc : TaskPC) :
    SysState n :=
  { s with tasks := fun u => if u = t then pc else s.tasks u }

/-- One atomic step of task t, at suspension-point granularity, following
GetSetHandler.handle on the cold-miss scenario: the optimistic L1 read
returns at once on a hit and otherwise proceeds to the lock; acquisition
succeeds only when the lock is free (otherwise the task stays blocked);
the re-read under the lock returns after releasing on a hit; the L2 check
on a hit releases first and then copies into L1 (the order of source
lines 200–201 and 94); on a miss it invokes the factory; the factory
completes and writes through L2 then L1, then releases and returns. -/
def stepTask {n : Nat} (v : Nat) (s : SysState n) (t : Fin n) : SysState n :=
  match s.tasks t with
  | .start =>
    match s.l1 with
    | some w => s.setTask t (.done w)
    | none => s.setTask t .acquiring
  | .acquiring =>
    match s.lock with
    | none => { s.setTask t .reread with lock := some t }
    | some _ => s
  | .reread =>
    match s.l1 with
    | some w => { s.setTask t (.done w) with lock := none }
    | none => s.setTask t .checkL2
  | .checkL2 =>
    match s.l2 with
    | some w => { s.setTask t (.l1copy w) with lock := none }
    | none =>
      { s.setTask t .factoryRunning with factoryCount := s.factoryCount + 1 }
  | .l1copy w => { s.setTask t (.done w) with l1 := some w }
  | .factoryRunning => s.setTask t .writeL2
  | .writeL2 => { s.setTask t .writeL1 with l2 := some v }
  | .writeL1 => { s.setTask t (.releasing v) with l1 := some v }
  | .releasing w => { s.setTask t (.done w) with lock := none }
  | .done _ => s

/-- The initial state of the cold-miss scenario: lock free, both tiers
empty, every task at its optimistic read, no factory invocation yet. -/
def initState (n : Nat) : SysState n :=
  { lock := none, l1 := none, l2 := none, tasks := fun _ => .start, factoryCount := 0 }

/-- Runs k steps of the concurrent system under an arbitrary schedule:
at step i the task sched i moves (or stays put when blocked or done). -/
def runSystem (n v : Nat) (sched : Nat → Fin n) : Nat → SysState n
  | 0 => initState n
  | k + 1 => stepTask v (runSystem n v sched k) (sched k)

/-- A concrete round-robin schedule over two tasks, used by the witness
of the stampede theorem. -/
def rrSched : Nat → Fin 2 :=
  fun i => if i % 2 = 0 then 0 else 1

/-- The inductive invariant of the concurrent model: the lock has exactly
the holders its state says; tier contents only ever hold the factory
value; values carried by program counters only ever hold the factory
value; at most one factory invocation has happened, none before any tier
is written or any task passes the lock region, and while the factory
result is not yet in L2 the invoking task is still inside the lock
region. -/
structure SysInv (n v : Nat) (s : SysState n) : Prop where
  holderOfLock : ∀ t : Fin n, (s.tasks t).holdsLock = true → s.lock = some t
  lockHeld : ∀ t : Fin n, s.lock = some t → (s.tasks t).holdsLock = true
  l1Val : s.l1 = none ∨ s.l1 = some v
  l2Val : s.l2 = none ∨ s.l2 = some v
  copyVal : ∀ (t : Fin n) (w : Nat), s.tasks t = .l1copy w → w = v
  relVal : ∀ (t : Fin n) (w : Nat), s.tasks t = .releasing w → w = v
  doneVal : ∀ (t : Fin n) (w : Nat), s.tasks t = .done w → w = v
  countLe : s.factoryCount ≤ 1
  countZero : s.factoryCount = 0 →
    s.l1 = none ∧ s.l2 = none ∧ ∀ t : Fin n, (s.tasks t).preFactory = true
  countOne : s.factoryCount = 1 →
    s.l2 = some v ∨ ∃ t : Fin n, (s.tasks t).factoryPending = true

/-
Helper lemmas shared by the claim theorems.
-/

/-- A present item that fails the validity check is logically expired. -/
theorem isItemValid_false_expired {now : Nat} {it : CacheItem}
    (h : GetSetHandler.isItemValid now (some it) = false) :
    it.isLogicallyExpired now = true := by
  simpa [GetSetHandler.isItemValid] using h

/-- A present item that passes the validity check is not logically
expired. -/
theorem isItemValid_true_not_expired {now : Nat} {it : CacheItem}
    (h : GetSetHandler.isItemValid now (some it) = true) :
    it.isLogicallyExpired now = false := by
  simpa [GetSetHandler.isItemValid] using h

/-- Prepending any effect preserves the existence of a releaser
invocation that precedes an L1 write. -/
theorem l1SetAfterRelease_cons_of (e : Effect) (tr : List Effect)
    (h : l1SetAfterRelease tr = true) : l1SetAfterRelease (e :: tr) = true := by
  cases e <;> simp [l1SetAfterRelease, h]

/-- A trace with a releaser invocation followed by an L1 write somewhere
after it witnesses a release happening before an L1 write. -/
theorem l1SetAfterRelease_append (a b : List Effect)
    (h : b.any isL1SetEffect = true) :
    l1SetAfterRelease (a ++ Effect.releaseLock :: b) = true := by
  induction a with
  | nil => simp [l1SetAfterRelease, h]
  | cons e rest ih => exact l1SetAfterRelease_cons_of e _ ih

/-- Inversion for the factory runner: a FactorySoftTimeout failure can
only arise when the soft timeout is configured, a fallback value exists
and the grace period is enabled (spec.md §4.3 step 4). -/
theorem runner_soft_timeout_inversion
    (env : HandleEnv) (hf : Bool) (o : CacheItemOptions)
    (h : (factoryRunnerRun env hf o).2 = .error .factorySoftTimeout) :
    hf = true ∧ o.gracePeriod.enabled = true ∧ o.softTimeout.isSome = true := by
  by_cases harm : (o.softTimeout.isSome && hf && o.gracePeriod.enabled) = true
  · simp only [Bool.and_eq_true] at harm
    exact ⟨harm.1.2, harm.2, harm.1.1⟩
  · exfalso
    rcases hfac : env.factory with r | r <;>
      rcases r with n | v <;>
        rcases hw : env.l1Write with m2 | u <;>
          simp_all [factoryRunnerRun, cacheStackWriterSet]

/-- Expansion of handle down to Stage E: when the optimistic read, the
re-read under the lock and the L2 read all fail to produce a valid item
and the acquisition succeeds, handle is the four reads followed by the
Stage E computation. -/
theorem handle_expand_to_stageE
    (env : HandleEnv) (o : CacheItemOptions) (l0 li : Option CacheItem)
    (h0 : env.l1Read1 = .ok l0)
    (hv0 : GetSetHandler.isItemValid env.now l0 = false)
    (ha : env.acquire = .ok ())
    (h1 : env.l1Read2 = .ok li)
    (hv1 : GetSetHandler.isItemValid env.now li = false)
    (hv2 : GetSetHandler.isItemValid env.now env.l2Read = false) :
    GetSetHandler.handle env o =
      (Effect.l1Get :: Effect.acquireLock (o.getApplicableLockTimeout l0.isSome) ::
        Effect.l1Get :: Effect.l2Get ::
          (GetSetHandler.handleStageE env o li env.l2Read).1,
        (GetSetHandler.handleStageE env o li env.l2Read).2) := by
  rcases hl2 : env.l2Read with _ | r <;> cases l0 <;> cases li <;>
    simp_all [GetSetHandler.handle, GetSetHandler.handleAfterStageA,
      GetSetHandler.handleLocked, GetSetHandler.handleStageD,
      GetSetHandler.isItemValid]

/-
Claim theorems.
-/

/-- C1: evaluation of handle at the failing input.  The claim states that
every execution of handle that acquires the per-key lock invokes the
releaser exactly once on every path out of handle, including the path
where the L1 re-read under the lock raises an error.  The code violates
this: with the lock acquired and the re-read failing with a driver error,
the error propagates out of handle (no try/finally protects source lines
187–202) and the trace contains one acquisition and zero releaser
invocations — the per-key mutex leaks. -/
theorem C1_lock_leaked_on_reread_error :
    (GetSetHandler.handle envRereadError optsDefault).2 = .error (.driverError 0) ∧
    acquisitions (GetSetHandler.handle envRereadError optsDefault).1 = 1 ∧
    releaserInvocations (GetSetHandler.handle envRereadError optsDefault).1 = 0 := by
  decide

/-- C2 counterexample: on a valid L2 hit the source releases the lock
(line 200) before #returnRemoteCacheValue performs the L1 write (line
94).  At this concrete input the remote item is valid, handle returns its
value, and the trace contains a releaser invocation strictly before the
L1 write — refuting the claim that the lock is never released before the
in-band L1 write has completed. -/
theorem C2_counterexample :
    GetSetHandler.isItemValid envRemoteHit.now envRemoteHit.l2Read = true ∧
    (GetSetHandler.handle envRemoteHit optsDefault).2 = .ok 9 ∧
    l1SetAfterRelease (GetSetHandler.handle envRemoteHit optsDefault).1 = true := by
  decide

/-- C2 (amended): for every handle call that, while holding the per-key
lock, finds a valid item in L2, the lock is released first, and only then
is the item written to L1 and the value returned: the trace is exactly
the L1 read, the acquisition, the re-read, the L2 read, the releaser
invocation, the L1 copy of the remote item, and the CacheHit emission. -/
theorem C2_remote_hit_releases_before_l1_write
    (env : HandleEnv) (o : CacheItemOptions) (l0 li : Option CacheItem) (r : CacheItem)
    (h0 : env.l1Read1 = .ok l0)
    (hv0 : GetSetHandler.isItemValid env.now l0 = false)
    (ha : env.acquire = .ok ())
    (h1 : env.l1Read2 = .ok li)
    (hv1 : GetSetHandler.isItemValid env.now li = false)
    (h2 : env.l2Read = some r)
    (hv2 : GetSetHandler.isItemValid env.now (some r) = true)
    (hw : env.l1Write = .ok ()) :
    GetSetHandler.handle env o =
      ([Effect.l1Get, Effect.acquireLock (o.getApplicableLockTimeout l0.isSome),
        Effect.l1Get, Effect.l2Get, Effect.releaseLock, Effect.l1Set r,
        Effect.emitCacheHit r.getValue false], .ok r.getValue) := by
  cases l0 <;> cases li <;>
    simp_all [GetSetHandler.handle, GetSetHandler.handleAfterStageA,
      GetSetHandler.handleLocked, GetSetHandler.handleStageD,
      GetSetHandler.returnRemoteCacheValue, GetSetHandler.isItemValid]

/-- C2 witness: the amended theorem applied at the concrete remote-hit
environment. -/
theorem C2_remote_hit_witness :
    GetSetHandler.handle envRemoteHit optsDefault =
      ([Effect.l1Get, Effect.acquireLock (some 500), Effect.l1Get, Effect.l2Get,
        Effect.releaseLock, Effect.l1Set itemRemote, Effect.emitCacheHit 9 false],
        .ok 9) :=
  C2_remote_hit_releases_before_l1_write envRemoteHit optsDefault none none
    itemRemote rfl (by decide) rfl rfl (by decide) rfl (by decide) rfl

/-- C10: a remote hit never writes back to L2 — for every handle call
that returns through a valid L2 item, the trace contains no L2 write and
exactly one L1 write, the copy of the remote item, and the remote value
is returned. -/
theorem C10_remote_hit_writes_only_l1
    (env : HandleEnv) (o : CacheItemOptions) (l0 li : Option CacheItem) (r : CacheItem)
    (h0 : env.l1Read1 = .ok l0)
    (hv0 : GetSetHandler.isItemValid env.now l0 = false)
    (ha : env.acquire = .ok ())
    (h1 : env.l1Read2 = .ok li)
    (hv1 : GetSetHandler.isItemValid env.now li = false)
    (h2 : env.l2Read = some r)
    (hv2 : GetSetHandler.isItemValid env.now (some r) = true)
    (hw : env.l1Write = .ok ()) :
    l2Writes (GetSetHandler.handle env o).1 = 0 ∧
    l1Writes (GetSetHandler.handle env o).1 = 1 ∧
    Effect.l1Set r ∈ (GetSetHandler.handle env o).1 ∧
    (GetSetHandler.handle env o).2 = .ok r.getValue := by
  cases l0 <;> cases li <;>
    simp_all [GetSetHandler.handle, GetSetHandler.handleAfterStageA,
      GetSetHandler.handleLocked, GetSetHandler.handleStageD,
      GetSetHandler.returnRemoteCacheValue, GetSetHandler.isItemValid,
      l1Writes, l2Writes, isL1SetEffect, isL2SetEffect, List.countP_cons]

/-- C10 witness: the theorem applied at the concrete remote-hit
environment. -/
theorem C10_remote_hit_witness :
    l2Writes (GetSetHandler.handle envRemoteHit optsDefault).1 = 0 ∧
    l1Writes (GetSetHandler.handle envRemoteHit optsDefault).1 = 1 ∧
    Effect.l1Set itemRemote ∈ (GetSetHandler.handle envRemoteHit optsDefault).1 ∧
    (GetSetHandler.handle envRemoteHit optsDefault).2 = .ok 9 :=
  C10_remote_hit_writes_only_l1 envRemoteHit optsDefault none none itemRemote
    rfl (by decide) rfl rfl (by decide) rfl (by decide) rfl

/-- C7: when the initial L1 read returns a present, not logically expired
item, handle returns that item's value, emits a CacheHit whose staleness
flag is false, never acquires the per-key lock, and spawns the
early-refresh task exactly when the item is early expired (the spawn is an
independent effect: the returned value is the item's value regardless). -/
theorem C7_local_hit_no_lock (env : HandleEnv) (o : CacheItemOptions) (it : CacheItem)
    (h1 : env.l1Read1 = .ok (some it))
    (hv : GetSetHandler.isItemValid env.now (some it) = true) :
    (GetSetHandler.handle env o).2 = .ok it.getValue ∧
    Effect.emitCacheHit it.getValue false ∈ (GetSetHandler.handle env o).1 ∧
    acquisitions (GetSetHandler.handle env o).1 = 0 ∧
    (Effect.spawnEarlyRefresh ∈ (GetSetHandler.handle env o).1 ↔
      it.isEarlyExpired env.now = true) := by
  have hexp := isItemValid_true_not_expired hv
  cases he : it.isEarlyExpired env.now <;>
    simp_all [GetSetHandler.handle, GetSetHandler.returnLocalCacheValue,
      GetSetHandler.isItemValid, acquisitions]

/-- C7 witness: the theorem applied at the concrete early-expired local
hit. -/
theorem C7_local_hit_witness :
    (GetSetHandler.handle envLocalHit optsDefault).2 = .ok 5 ∧
    Effect.emitCacheHit 5 false ∈ (GetSetHandler.handle envLocalHit optsDefault).1 ∧
    acquisitions (GetSetHandler.handle envLocalHit optsDefault).1 = 0 ∧
    (Effect.spawnEarlyRefresh ∈ (GetSetHandler.handle envLocalHit optsDefault).1 ↔
      itemFresh.isEarlyExpired 10 = true) :=
  C7_local_hit_no_lock envLocalHit optsDefault itemFresh rfl (by decide)

/-- C5: when the lock acquisition fails with LockTimeout, handle returns
the stale local item's value with a graced CacheHit when the grace period
is enabled and a local item exists (even a logically expired one), and
propagates the timeout error unchanged otherwise. -/
theorem C5_lock_timeout_graced_or_propagated
    (env : HandleEnv) (o : CacheItemOptions) (li : Option CacheItem)
    (h1 : env.l1Read1 = .ok li)
    (hv : GetSetHandler.isItemValid env.now li = false)
    (ha : env.acquire = .error .lockTimeout) :
    (∀ it, li = some it → o.isGracePeriodEnabled = true →
      (GetSetHandler.handle env o).2 = .ok it.getValue ∧
      Effect.emitCacheHit it.getValue true ∈ (GetSetHandler.handle env o).1) ∧
    ((li = none ∨ o.isGracePeriodEnabled = false) →
      (GetSetHandler.handle env o).2 = .error .lockTimeout) := by
  cases li with
  | none =>
    cases hg : o.isGracePeriodEnabled <;>
      simp_all [GetSetHandler.handle, GetSetHandler.handleAfterStageA,
        GetSetHandler.returnGracedValueOrThrow, GetSetHandler.isItemValid]
  | some it =>
    have hexp := isItemValid_false_expired hv
    cases hg : o.isGracePeriodEnabled <;>
      simp_all [GetSetHandler.handle, GetSetHandler.handleAfterStageA,
        GetSetHandler.returnGracedValueOrThrow, GetSetHandler.returnLocalCacheValue,
        GetSetHandler.isItemValid]

/-- C5 witness: the theorem applied at the concrete lock-timeout
environment with a stale local item and grace enabled. -/
theorem C5_lock_timeout_witness :
    (GetSetHandler.handle envLockTimeout optsDefault).2 = .ok 1 ∧
    Effect.emitCacheHit 1 true ∈ (GetSetHandler.handle envLockTimeout optsDefault).1 :=
  (C5_lock_timeout_graced_or_propagated envLockTimeout optsDefault (some itemStale)
    rfl (by decide) rfl).1 itemStale rfl (by decide)

/-- C9: the grace fallback of handle applies to any error raised by the
lock acquisition, not only to a timeout — for every acquisition error,
whatever its kind, when the grace period is enabled and a (stale) local
item exists, handle returns that item's value with a graced CacheHit
instead of propagating the error. -/
theorem C9_any_acquire_error_graced
    (env : HandleEnv) (o : CacheItemOptions) (it : CacheItem) (e : CacheError)
    (h1 : env.l1Read1 = .ok (some it))
    (hv : GetSetHandler.isItemValid env.now (some it) = false)
    (ha : env.acquire = .error e)
    (hg : o.isGracePeriodEnabled = true) :
    (GetSetHandler.handle env o).2 = .ok it.getValue ∧
    Effect.emitCacheHit it.getValue true ∈ (GetSetHandler.handle env o).1 := by
  have hexp := isItemValid_false_expired hv
  simp_all [GetSetHandler.handle, GetSetHandler.handleAfterStageA,
    GetSetHandler.returnGracedValueOrThrow, GetSetHandler.returnLocalCacheValue,
    GetSetHandler.isItemValid]

/-- C9 witness: the theorem applied at a concrete acquisition failure
that is a driver error, not a timeout. -/
theorem C9_acquire_error_witness :
    (GetSetHandler.handle envAcquireError optsDefault).2 = .ok 1 ∧
    Effect.emitCacheHit 1 true ∈ (GetSetHandler.handle envAcquireError optsDefault).1 :=
  C9_any_acquire_error_graced envAcquireError optsDefault itemStale
    (.driverError 5) rfl (by decide) rfl rfl

/-- C3 counterexample: the catch handler of #earlyExpirationRefresh logs
the factory error and then rethrows it (source line 71), so the promise
returned by the background refresh rejects — refuting the claim that it
never rejects. -/
theorem C3_counterexample :
    (GetSetHandler.earlyExpirationRefresh renvFactoryError optsDefault).2 =
      .error (.factoryError 7) ∧
    Effect.logError ∈ (GetSetHandler.earlyExpirationRefresh renvFactoryError optsDefault).1 := by
  decide

/-- C3 (amended): a factory error in the early refresh is logged and then
rethrown, so the background promise rejects with it; the mutex taken by
runExclusive is still released exactly once; and no error from the
refresh reaches the foreground handle caller — its result on the
optimistic-hit path that spawned the refresh is the local item's value,
whatever the refresh environment. -/
theorem C3_refresh_error_logged_and_rethrown
    (renv : RefreshEnv) (o : CacheItemOptions) (n : Nat)
    (env : HandleEnv) (it : CacheItem)
    (hl : renv.isLocked = false)
    (hf : renv.factory = .error n)
    (h1 : env.l1Read1 = .ok (some it))
    (hv : GetSetHandler.isItemValid env.now (some it) = true) :
    (GetSetHandler.earlyExpirationRefresh renv o).2 = .error (.factoryError n) ∧
    Effect.logError ∈ (GetSetHandler.earlyExpirationRefresh renv o).1 ∧
    releaserInvocations (GetSetHandler.earlyExpirationRefresh renv o).1 = 1 ∧
    (GetSetHandler.handle env o).2 = .ok it.getValue := by
  have hexp := isItemValid_true_not_expired hv
  cases he : it.isEarlyExpired env.now <;>
    simp_all [GetSetHandler.earlyExpirationRefresh, GetSetHandler.handle,
      GetSetHandler.returnLocalCacheValue, GetSetHandler.isItemValid,
      releaserInvocations]

/-- C3 witness: the amended theorem applied at the concrete refresh
failure next to a concrete foreground hit. -/
theorem C3_refresh_error_witness :
    (GetSetHandler.earlyExpirationRefresh renvFactoryError optsDefault).2 =
      .error (.factoryError 7) ∧
    Effect.logError ∈ (GetSetHandler.earlyExpirationRefresh renvFactoryError optsDefault).1 ∧
    releaserInvocations (GetSetHandler.earlyExpirationRefresh renvFactoryError optsDefault).1 = 1 ∧
    (GetSetHandler.handle envLocalHit optsDefault).2 = .ok 5 :=
  C3_refresh_error_logged_and_rethrown renvFactoryError optsDefault 7
    envLocalHit itemFresh rfl rfl rfl (by decide)

/-- C6 counterexample: the claim keys the soft-timeout grace decision to
the L1 item present before the lock was taken, but the source reassigns
localItem to the re-read under the lock (line 187).  At this concrete
input no L1 item exists before the lock, the re-read finds a stale item
written meanwhile, the factory soft-times out, and handle returns the
stale value instead of rethrowing the FactorySoftTimeout error as the
claim requires when no pre-lock item was present. -/
theorem C6_counterexample :
    envSoftTimeout.l1Read1 = .ok none ∧
    (factoryRunnerRun envSoftTimeout true optsDefault).2 = .error .factorySoftTimeout ∧
    (GetSetHandler.handle envSoftTimeout optsDefault).2 = .ok 1 := by
  decide

/-- C6 (amended): when the factory run fails with FactorySoftTimeout, the
L1 item that decides the graced return is the one re-read under the lock,
not the pre-lock read; such an item necessarily exists (the runner only
soft-times out when a fallback value exists and grace is enabled), and
handle returns its value with a graced CacheHit. -/
theorem C6_soft_timeout_graces_rechecked_item
    (env : HandleEnv) (o : CacheItemOptions) (l0 li : Option CacheItem)
    (h0 : env.l1Read1 = .ok l0)
    (hv0 : GetSetHandler.isItemValid env.now l0 = false)
    (ha : env.acquire = .ok ())
    (h1 : env.l1Read2 = .ok li)
    (hv1 : GetSetHandler.isItemValid env.now li = false)
    (hv2 : GetSetHandler.isItemValid env.now env.l2Read = false)
    (hrun : (factoryRunnerRun env li.isSome o).2 = .error .factorySoftTimeout) :
    ∃ it, li = some it ∧ o.isGracePeriodEnabled = true ∧
      (GetSetHandler.handle env o).2 = .ok it.getValue ∧
      Effect.emitCacheHit it.getValue true ∈ (GetSetHandler.handle env o).1 := by
  obtain ⟨hfb, hgr, hsoft⟩ := runner_soft_timeout_inversion env li.isSome o hrun
  rcases li with _ | it
  · simp at hfb
  · obtain ⟨fx, hfx⟩ :
        ∃ fx, factoryRunnerRun env (some it : Option CacheItem).isSome o =
          (fx, Except.error CacheError.factorySoftTimeout) :=
      ⟨(factoryRunnerRun env (some it : Option CacheItem).isSome o).1, by rw [← hrun]⟩
    have hexp := isItemValid_false_expired hv1
    refine ⟨it, rfl, hgr, ?_⟩
    rcases hl2 : env.l2Read with _ | r <;> cases l0 <;>
      simp_all [GetSetHandler.handle, GetSetHandler.handleAfterStageA,
        GetSetHandler.handleLocked, GetSetHandler.handleStageD,
        GetSetHandler.handleStageE, GetSetHandler.returnGracedValueOrThrow,
        GetSetHandler.returnLocalCacheValue, GetSetHandler.isItemValid,
        CacheItemOptions.isGracePeriodEnabled]

/-- C6 witness: the amended theorem applied at the concrete soft-timeout
environment. -/
theorem C6_soft_timeout_witness :
    ∃ it, (some itemStale : Option CacheItem) = some it ∧
      optsDefault.isGracePeriodEnabled = true ∧
      (GetSetHandler.handle envSoftTimeout optsDefault).2 = .ok it.getValue ∧
      Effect.emitCacheHit it.getValue true ∈
        (GetSetHandler.handle envSoftTimeout optsDefault).1 :=
  C6_soft_timeout_graces_rechecked_item envSoftTimeout optsDefault none
    (some itemStale) rfl (by decide) rfl rfl (by decide) (by decide) (by decide)

/-- C4: when the factory run fails with an error other than
FactorySoftTimeout, with staleItem = remoteItem ?? localItem: if staleItem
exists and the grace period is enabled, handle invokes the releaser,
rewrites the stale item into L1 with the fallback duration applied to its
logical expiry whenever gracePeriod.fallbackDuration is set (the rewrite
happens after the release), emits a graced CacheHit and returns the stale
value; otherwise handle invokes the releaser and rethrows the error
unchanged.  The executions considered are those whose L1 rewrite does not
itself fail. -/
theorem C4_factory_error_fallback
    (env : HandleEnv) (o : CacheItemOptions) (l0 li : Option CacheItem) (e : CacheError)
    (h0 : env.l1Read1 = .ok l0)
    (hv0 : GetSetHandler.isItemValid env.now l0 = false)
    (ha : env.acquire = .ok ())
    (h1 : env.l1Read2 = .ok li)
    (hv1 : GetSetHandler.isItemValid env.now li = false)
    (hv2 : GetSetHandler.isItemValid env.now env.l2Read = false)
    (hw : env.l1Write = .ok ())
    (hrun : (factoryRunnerRun env li.isSome o).2 = .error e)
    (hne : e ≠ .factorySoftTimeout) :
    (∀ st, GetSetHandler.staleItemOf env.l2Read li = some st →
      o.isGracePeriodEnabled = true →
      (GetSetHandler.handle env o).2 = .ok st.getValue ∧
      Effect.emitCacheHit st.getValue true ∈ (GetSetHandler.handle env o).1 ∧
      Effect.releaseLock ∈ (GetSetHandler.handle env o).1 ∧
      (∀ d, o.gracePeriod.fallbackDuration = some d →
        Effect.l1Set (st.applyFallbackDuration env.now d) ∈ (GetSetHandler.handle env o).1 ∧
        l1SetAfterRelease (GetSetHandler.handle env o).1 = true)) ∧
    ((GetSetHandler.staleItemOf env.l2Read li = none ∨ o.isGracePeriodEnabled = false) →
      (GetSetHandler.handle env o).2 = .error e ∧
      Effect.releaseLock ∈ (GetSetHandler.handle env o).1) := by
  obtain ⟨fx, hfx⟩ : ∃ fx, factoryRunnerRun env li.isSome o = (fx, .error e) :=
    ⟨(factoryRunnerRun env li.isSome o).1, by rw [← hrun]⟩
  have hexpand := handle_expand_to_stageE env o l0 li h0 hv0 ha h1 hv1 hv2
  rw [hexpand]
  constructor
  · intro st hst hg
    have hge : o.gracePeriod.enabled = true := by
      simpa [CacheItemOptions.isGracePeriodEnabled] using hg
    rcases hfd : o.gracePeriod.fallbackDuration with _ | d
    · have hstage : GetSetHandler.handleStageE env o li env.l2Read =
          (fx ++ Effect.releaseLock :: [Effect.emitCacheHit st.getValue true],
            .ok st.getValue) := by
        simp [GetSetHandler.handleStageE, hfx, hne, hst, hg,
          GetSetHandler.applyFallbackAndReturnGracedValue, hge, hfd]
      rw [hstage]
      refine ⟨by simp, by simp, by simp, ?_⟩
      intro d hd
      simp [hfd] at hd
    · have hstage : GetSetHandler.handleStageE env o li env.l2Read =
          (fx ++ Effect.releaseLock ::
            [Effect.l1Set (st.applyFallbackDuration env.now d),
             Effect.emitCacheHit st.getValue true],
            .ok st.getValue) := by
        simp [GetSetHandler.handleStageE, hfx, hne, hst, hg,
          GetSetHandler.applyFallbackAndReturnGracedValue, hge, hfd, hw]
      rw [hstage]
      refine ⟨by simp, by simp, by simp, ?_⟩
      intro d2 hd2
      obtain rfl := Option.some.inj hd2
      refine ⟨by simp, ?_⟩
      show l1SetAfterRelease (Effect.l1Get :: Effect.acquireLock _ :: Effect.l1Get ::
        Effect.l2Get :: (fx ++ Effect.releaseLock ::
          [Effect.l1Set (st.applyFallbackDuration env.now d),
           Effect.emitCacheHit st.getValue true])) = true
      apply l1SetAfterRelease_cons_of
      apply l1SetAfterRelease_cons_of
      apply l1SetAfterRelease_cons_of
      apply l1SetAfterRelease_cons_of
      exact l1SetAfterRelease_append fx _ (by simp [isL1SetEffect])
  · intro hcase
    have hstage : GetSetHandler.handleStageE env o li env.l2Read =
        (fx ++ [Effect.releaseLock], .error e) := by
      rcases hcase with hnone | hgf
      · cases hg2 : o.isGracePeriodEnabled <;>
          simp [GetSetHandler.handleStageE, hfx, hne, hnone, hg2]
      · rcases hsi : GetSetHandler.staleItemOf env.l2Read li with _ | st <;>
          simp [GetSetHandler.handleStageE, hfx, hne, hsi, hgf]
    rw [hstage]
    exact ⟨by simp, by simp⟩

/-- C4 witness: the theorem applied at the concrete factory-error
environment with a stale local item, grace enabled and a fallback
duration of 2000 at instant 10. -/
theorem C4_factory_error_witness :
    (GetSetHandler.handle envFactoryError optsDefault).2 = .ok 1 ∧
    Effect.l1Set (itemStale.applyFallbackDuration 10 2000) ∈
      (GetSetHandler.handle envFactoryError optsDefault).1 ∧
    l1SetAfterRelease (GetSetHandler.handle envFactoryError optsDefault).1 = true := by
  have h := (C4_factory_error_fallback envFactoryError optsDefault none
    (some itemStale) (.factoryError 3) rfl (by decide) rfl rfl (by decide)
    (by decide) rfl (by decide) (by decide)).1 itemStale rfl (by decide)
  exact ⟨h.1, (h.2.2.2 2000 rfl).1, (h.2.2.2 2000 rfl).2⟩

/-
The concurrent model: invariant preservation and the stampede theorem.
-/

@[simp] theorem setTask_tasks_self {n : Nat} (s : SysState n) (t : Fin n) (pc : TaskPC) :
    (s.setTask t pc).tasks t = pc := by
  simp [SysState.setTask]

@[simp] theorem setTask_tasks_other {n : Nat} (s : SysState n) (t u : Fin n) (pc : TaskPC)
    (h : u ≠ t) : (s.setTask t pc).tasks u = s.tasks u := by
  simp [SysState.setTask, h]

@[simp] theorem setTask_lock {n : Nat} (s : SysState n) (t : Fin n) (pc : TaskPC) :
    (s.setTask t pc).lock = s.lock := rfl

@[simp] theorem setTask_l1 {n : Nat} (s : SysState n) (t : Fin n) (pc : TaskPC) :
    (s.setTask t pc).l1 = s.l1 := rfl

@[simp] theorem setTask_l2 {n : Nat} (s : SysState n) (t : Fin n) (pc : TaskPC) :
    (s.setTask t pc).l2 = s.l2 := rfl

@[simp] theorem setTask_factoryCount {n : Nat} (s : SysState n) (t : Fin n) (pc : TaskPC) :
    (s.setTask t pc).factoryCount = s.factoryCount := rfl

/-- A task between factory invocation and L2 write holds the lock. -/
theorem pending_holds (pc : TaskPC) (h : pc.factoryPending = true) :
    pc.holdsLock = true := by
  cases pc <;> simp_all [TaskPC.factoryPending, TaskPC.holdsLock]

/-- Lock-holder soundness is preserved by a step that keeps the lock,
provided the new program counter implies the stepping task holds it. -/
theorem holder_preserved {n : Nat} {s : SysState n} {t : Fin n} {pc : TaskPC}
    (hol : ∀ u : Fin n, (s.tasks u).holdsLock = true → s.lock = some u)
    (himp : pc.holdsLock = true → s.lock = some t) :
    ∀ u : Fin n, ((s.setTask t pc).tasks u).holdsLock = true → s.lock = some u := by
  intro u hu
  by_cases hut : u = t
  · subst hut; rw [setTask_tasks_self] at hu; exact himp hu
  · rw [setTask_tasks_other _ _ _ _ hut] at hu; exact hol u hu

/-- Lock-holder completeness is preserved by a step that keeps the lock,
provided the stepping task keeps holding it whenever it was the holder. -/
theorem lockHeld_preserved {n : Nat} {s : SysState n} {t : Fin n} {pc : TaskPC}
    (hlh : ∀ u : Fin n, s.lock = some u → (s.tasks u).holdsLock = true)
    (himp : s.lock = some t → pc.holdsLock = true) :
    ∀ u : Fin n, s.lock = some u → ((s.setTask t pc).tasks u).holdsLock = true := by
  intro u hl
  by_cases hut : u = t
  · subst hut; rw [setTask_tasks_self]; exact himp hl
  · rw [setTask_tasks_other _ _ _ _ hut]; exact hlh u hl

/-- After the holder releases, no task holds the lock. -/
theorem holder_released {n : Nat} {s : SysState n} {t : Fin n} {pc : TaskPC}
    (hol : ∀ u : Fin n, (s.tasks u).holdsLock = true → s.lock = some u)
    (hheld : (s.tasks t).holdsLock = true)
    (hnew : pc.holdsLock = false) :
    ∀ u : Fin n, ((s.setTask t pc).tasks u).holdsLock = true →
      (none : Option (Fin n)) = some u := by
  intro u hu
  by_cases hut : u = t
  · subst hut; rw [setTask_tasks_self] at hu; rw [hnew] at hu; cases hu
  · rw [setTask_tasks_other _ _ _ _ hut] at hu
    have h1 := hol u hu
    have h2 := hol t hheld
    rw [h1] at h2
    exact absurd (Option.some.inj h2) hut

/-- The l1copy payload invariant survives a step whose new program counter
only ever carries the factory value. -/
theorem copyVal_preserved {n v : Nat} {s : SysState n} {t : Fin n} {pc : TaskPC}
    (hcv : ∀ (u : Fin n) (w : Nat), s.tasks u = .l1copy w → w = v)
    (hnew : ∀ w, pc = .l1copy w → w = v) :
    ∀ (u : Fin n) (w : Nat), (s.setTask t pc).tasks u = .l1copy w → w = v := by
  intro u w h
  by_cases hut : u = t
  · subst hut; rw [setTask_tasks_self] at h; exact hnew w h
  · rw [setTask_tasks_other _ _ _ _ hut] at h; exact hcv u w h

/-- The releasing payload invariant survives a step whose new program
counter only ever carries the factory value. -/
theorem relVal_preserved {n v : Nat} {s : SysState n} {t : Fin n} {pc : TaskPC}
    (hrv : ∀ (u : Fin n) (w : Nat), s.tasks u = .releasing w → w = v)
    (hnew : ∀ w, pc = .releasing w → w = v) :
    ∀ (u : Fin n) (w : Nat), (s.setTask t pc).tasks u = .releasing w → w = v := by
  intro u w h
  by_cases hut : u = t
  · subst hut; rw [setTask_tasks_self] at h; exact hnew w h
  · rw [setTask_tasks_other _ _ _ _ hut] at h; exact hrv u w h

/-- The done payload invariant survives a step whose new program counter
only ever carries the factory value. -/
theorem doneVal_preserved {n v : Nat} {s : SysState n} {t : Fin n} {pc : TaskPC}
    (hdv : ∀ (u : Fin n) (w : Nat), s.tasks u = .done w → w = v)
    (hnew : ∀ w, pc = .done w → w = v) :
    ∀ (u : Fin n) (w : Nat), (s.setTask t pc).tasks u = .done w → w = v := by
  intro u w h
  by_cases hut : u = t
  · subst hut; rw [setTask_tasks_self] at h; exact hnew w h
  · rw [setTask_tasks_other _ _ _ _ hut] at h; exact hdv u w h

/-- Before any factory has run, every task is still in the pre-factory
region, and this survives a step whose new program counter also is. -/
theorem preFactory_preserved {n : Nat} {s : SysState n} {t : Fin n} {pc : TaskPC}
    (hpre : ∀ u : Fin n, (s.tasks u).preFactory = true)
    (hnew : pc.preFactory = true) :
    ∀ u : Fin n, ((s.setTask t pc).tasks u).preFactory = true := by
  intro u
  by_cases hut : u = t
  · subst hut; rw [setTask_tasks_self]; exact hnew
  · rw [setTask_tasks_other _ _ _ _ hut]; exact hpre u

/-- A pending-factory witness survives a step of a task that is not
itself pending. -/
theorem pendingWitness_preserved {n : Nat} {s : SysState n} {t : Fin n} {pc : TaskPC}
    (hnp : (s.tasks t).factoryPending = false) :
    (∃ u : Fin n, (s.tasks u).factoryPending = true) →
      ∃ u : Fin n, ((s.setTask t pc).tasks u).factoryPending = true := by
  rintro ⟨u, hu⟩
  have hut : u ≠ t := by
    intro he
    subst he
    rw [hu] at hnp
    cases hnp
  exact ⟨u, by rw [setTask_tasks_other _ _ _ _ hut]; exact hu⟩

/-- The invariant holds initially. -/
theorem sysInv_init (n v : Nat) : SysInv n v (initState n) := by
  refine ⟨?_, ?_, ?_, ?_, ?_, ?_, ?_, ?_, ?_, ?_⟩ <;>
    simp [initState, TaskPC.holdsLock, TaskPC.preFactory]

/-- One step of any task preserves the invariant. -/
theorem sysInv_step {n v : Nat} {s : SysState n} (h : SysInv n v s) (t : Fin n) :
    SysInv n v (stepTask v s t) := by
  obtain ⟨hol, hlh, h1v, h2v, hcv, hrv, hdv, hle, hz, ho⟩ := h
  cases hpc : s.tasks t with
  | start =>
    cases h1 : s.l1 with
    | some w =>
      have hwv : w = v := by rcases h1v with hh | hh <;> simp_all
      have hstep : stepTask v s t = s.setTask t (.done w) := by
        unfold stepTask; rw [hpc, h1]
      rw [hstep]
      refine ⟨?_, ?_, h1v, h2v, ?_, ?_, ?_, hle, ?_, ?_⟩
      · exact holder_preserved hol (by intro hh; simp [TaskPC.holdsLock] at hh)
      · refine lockHeld_preserved hlh ?_
        intro hl
        have hh := hlh t hl
        rw [hpc] at hh
        simp [TaskPC.holdsLock] at hh
      · exact copyVal_preserved hcv (fun w' hh => nomatch hh)
      · exact relVal_preserved hrv (fun w' hh => nomatch hh)
      · exact doneVal_preserved hdv (fun w' hh => by cases hh; exact hwv)
      · intro hc0
        exact absurd (h1.symm.trans (hz hc0).1) (by simp)
      · intro hc1
        rcases ho hc1 with hl2 | hex
        · exact Or.inl hl2
        · exact Or.inr (pendingWitness_preserved (by rw [hpc]; rfl) hex)
    | none =>
      have hstep : stepTask v s t = s.setTask t .acquiring := by
        unfold stepTask; rw [hpc, h1]
      rw [hstep]
      refine ⟨?_, ?_, h1v, h2v, ?_, ?_, ?_, hle, ?_, ?_⟩
      · exact holder_preserved hol (by intro hh; simp [TaskPC.holdsLock] at hh)
      · refine lockHeld_preserved hlh ?_
        intro hl
        have hh := hlh t hl
        rw [hpc] at hh
        simp [TaskPC.holdsLock] at hh
      · exact copyVal_preserved hcv (fun w' hh => nomatch hh)
      · exact relVal_preserved hrv (fun w' hh => nomatch hh)
      · exact doneVal_preserved hdv (fun w' hh => nomatch hh)
      · intro hc0
        exact ⟨(hz hc0).1, (hz hc0).2.1, preFactory_preserved (hz hc0).2.2 rfl⟩
      · intro hc1
        rcases ho hc1 with hl2 | hex
        · exact Or.inl hl2
        · exact Or.inr (pendingWitness_preserved (by rw [hpc]; rfl) hex)
  | acquiring =>
    cases hlock : s.lock with
    | none =>
      have hstep : stepTask v s t = { s.setTask t .reread with lock := some t } := by
        unfold stepTask; rw [hpc, hlock]
      rw [hstep]
      refine ⟨?_, ?_, h1v, h2v, ?_, ?_, ?_, hle, ?_, ?_⟩
      · intro u hu
        by_cases hut : u = t
        · subst hut; rfl
        · rw [setTask_tasks_other _ _ _ _ hut] at hu
          have hh := hol u hu
          rw [hlock] at hh
          cases hh
      · intro u hl
        have hut : t = u := Option.some.inj hl
        subst hut
        rw [setTask_tasks_self]
        rfl
      · exact copyVal_preserved hcv (fun w' hh => nomatch hh)
      · exact relVal_preserved hrv (fun w' hh => nomatch hh)
      · exact doneVal_preserved hdv (fun w' hh => nomatch hh)
      · intro hc0
        exact ⟨(hz hc0).1, (hz hc0).2.1, preFactory_preserved (hz hc0).2.2 rfl⟩
      · intro hc1
        rcases ho hc1 with hl2 | hex
        · exact Or.inl hl2
        · exact Or.inr (pendingWitness_preserved (by rw [hpc]; rfl) hex)
    | some holder =>
      have hstep : stepTask v s t = s := by
        unfold stepTask; rw [hpc, hlock]
      rw [hstep]
      exact ⟨hol, hlh, h1v, h2v, hcv, hrv, hdv, hle, hz, ho⟩
  | reread =>
    cases h1 : s.l1 with
    | some w =>
      have hwv : w = v := by rcases h1v with hh | hh <;> simp_all
      have hstep : stepTask v s t = { s.setTask t (.done w) with lock := none } := by
        unfold stepTask; rw [hpc, h1]
      rw [hstep]
      refine ⟨?_, ?_, h1v, h2v, ?_, ?_, ?_, hle, ?_, ?_⟩
      · exact holder_released hol (by rw [hpc]; rfl) rfl
      · intro u hl
        cases hl
      · exact copyVal_preserved hcv (fun w' hh => nomatch hh)
      · exact relVal_preserved hrv (fun w' hh => nomatch hh)
      · exact doneVal_preserved hdv (fun w' hh => by cases hh; exact hwv)
      · intro hc0
        exact absurd (h1.symm.trans (hz hc0).1) (by simp)
      · intro hc1
        rcases ho hc1 with hl2 | hex
        · exact Or.inl hl2
        · exact Or.inr (pendingWitness_preserved (by rw [hpc]; rfl) hex)
    | none =>
      have hstep : stepTask v s t = s.setTask t .checkL2 := by
        unfold stepTask; rw [hpc, h1]
      rw [hstep]
      refine ⟨?_, ?_, h1v, h2v, ?_, ?_, ?_, hle, ?_, ?_⟩
      · exact holder_preserved hol (fun _ => hol t (by rw [hpc]; rfl))
      · exact lockHeld_preserved hlh (fun _ => rfl)
      · exact copyVal_preserved hcv (fun w' hh => nomatch hh)
      · exact relVal_preserved hrv (fun w' hh => nomatch hh)
      · exact doneVal_preserved hdv (fun w' hh => nomatch hh)
      · intro hc0
        exact ⟨(hz hc0).1, (hz hc0).2.1, preFactory_preserved (hz hc0).2.2 rfl⟩
      · intro hc1
        rcases ho hc1 with hl2 | hex
        · exact Or.inl hl2
        · exact Or.inr (pendingWitness_preserved (by rw [hpc]; rfl) hex)
  | checkL2 =>
    cases h2 : s.l2 with
    | some w =>
      have hwv : w = v := by rcases h2v with hh | hh <;> simp_all
      have hstep : stepTask v s t = { s.setTask t (.l1copy w) with lock := none } := by
        unfold stepTask; rw [hpc, h2]
      rw [hstep]
      refine ⟨?_, ?_, h1v, h2v, ?_, ?_, ?_, hle, ?_, ?_⟩
      · exact holder_released hol (by rw [hpc]; rfl) rfl
      · intro u hl
        cases hl
      · exact copyVal_preserved hcv (fun w' hh => by cases hh; exact hwv)
      · exact relVal_preserved hrv (fun w' hh => nomatch hh)
      · exact doneVal_preserved hdv (fun w' hh => nomatch hh)
      · intro hc0
        exact absurd (h2.symm.trans (hz hc0).2.1) (by simp)
      · intro hc1
        rcases ho hc1 with hl2 | hex
        · exact Or.inl hl2
        · exact Or.inr (pendingWitness_preserved (by rw [hpc]; rfl) hex)
    | none =>
      have hstep : stepTask v s t =
          { s.setTask t .factoryRunning with factoryCount := s.factoryCount + 1 } := by
        unfold stepTask; rw [hpc, h2]
      have hc0 : s.factoryCount = 0 := by
        rcases Nat.eq_zero_or_pos s.factoryCount with hc | hc
        · exact hc
        · exfalso
          have hc1 : s.factoryCount = 1 := by omega
          rcases ho hc1 with hl2v | ⟨u, hu⟩
          · rw [h2] at hl2v
            cases hl2v
          · have h3 := hol u (pending_holds _ hu)
            have h4 := hol t (by rw [hpc]; rfl)
            rw [h4] at h3
            have hut : t = u := Option.some.inj h3
            subst hut
            rw [hpc] at hu
            simp [TaskPC.factoryPending] at hu
      rw [hstep]
      refine ⟨?_, ?_, h1v, h2v, ?_, ?_, ?_, ?_, ?_, ?_⟩
      · exact holder_preserved hol (fun _ => hol t (by rw [hpc]; rfl))
      · exact lockHeld_preserved hlh (fun _ => rfl)
      · exact copyVal_preserved hcv (fun w' hh => nomatch hh)
      · exact relVal_preserved hrv (fun w' hh => nomatch hh)
      · exact doneVal_preserved hdv (fun w' hh => nomatch hh)
      · show s.factoryCount + 1 ≤ 1
        omega
      · intro hcz
        have hcz2 : s.factoryCount + 1 = 0 := hcz
        exact absurd hcz2 (by omega)
      · intro _
        exact Or.inr ⟨t, by rw [setTask_tasks_self]; rfl⟩
  | l1copy w =>
    have hwv : w = v := hcv t w hpc
    have hstep : stepTask v s t = { s.setTask t (.done w) with l1 := some w } := by
      unfold stepTask; rw [hpc]
    rw [hstep]
    refine ⟨?_, ?_, ?_, h2v, ?_, ?_, ?_, hle, ?_, ?_⟩
    · exact holder_preserved hol (by intro hh; simp [TaskPC.holdsLock] at hh)
    · refine lockHeld_preserved hlh ?_
      intro hl
      have hh := hlh t hl
      rw [hpc] at hh
      simp [TaskPC.holdsLock] at hh
    · exact Or.inr (by rw [hwv])
    · exact copyVal_preserved hcv (fun w' hh => nomatch hh)
    · exact relVal_preserved hrv (fun w' hh => nomatch hh)
    · exact doneVal_preserved hdv (fun w' hh => by cases hh; exact hwv)
    · intro hc0
      have hh := (hz hc0).2.2 t
      rw [hpc] at hh
      simp [TaskPC.preFactory] at hh
    · intro hc1
      rcases ho hc1 with hl2 | hex
      · exact Or.inl hl2
      · exact Or.inr (pendingWitness_preserved (by rw [hpc]; rfl) hex)
  | factoryRunning =>
    have hstep : stepTask v s t = s.setTask t .writeL2 := by
      unfold stepTask; rw [hpc]
    rw [hstep]
    refine ⟨?_, ?_, h1v, h2v, ?_, ?_, ?_, hle, ?_, ?_⟩
    · exact holder_preserved hol (fun _ => hol t (by rw [hpc]; rfl))
    · exact lockHeld_preserved hlh (fun _ => rfl)
    · exact copyVal_preserved hcv (fun w' hh => nomatch hh)
    · exact relVal_preserved hrv (fun w' hh => nomatch hh)
    · exact doneVal_preserved hdv (fun w' hh => nomatch hh)
    · intro hc0
      have hh := (hz hc0).2.2 t
      rw [hpc] at hh
      simp [TaskPC.preFactory] at hh
    · intro _
      exact Or.inr ⟨t, by rw [setTask_tasks_self]; rfl⟩
  | writeL2 =>
    have hstep : stepTask v s t = { s.setTask t .writeL1 with l2 := some v } := by
      unfold stepTask; rw [hpc]
    rw [hstep]
    refine ⟨?_, ?_, h1v, Or.inr rfl, ?_, ?_, ?_, hle, ?_, ?_⟩
    · exact holder_preserved hol (fun _ => hol t (by rw [hpc]; rfl))
    · exact lockHeld_preserved hlh (fun _ => rfl)
    · exact copyVal_preserved hcv (fun w' hh => nomatch hh)
    · exact relVal_preserved hrv (fun w' hh => nomatch hh)
    · exact doneVal_preserved hdv (fun w' hh => nomatch hh)
    · intro hc0
      have hh := (hz hc0).2.2 t
      rw [hpc] at hh
      simp [TaskPC.preFactory] at hh
    · intro _
      exact Or.inl rfl
  | writeL1 =>
    have hstep : stepTask v s t = { s.setTask t (.releasing v) with l1 := some v } := by
      unfold stepTask; rw [hpc]
    rw [hstep]
    refine ⟨?_, ?_, Or.inr rfl, h2v, ?_, ?_, ?_, hle, ?_, ?_⟩
    · exact holder_preserved hol (fun _ => hol t (by rw [hpc]; rfl))
    · exact lockHeld_preserved hlh (fun _ => rfl)
    · exact copyVal_preserved hcv (fun w' hh => nomatch hh)
    · exact relVal_preserved hrv (fun w' hh => by cases hh; rfl)
    · exact doneVal_preserved hdv (fun w' hh => nomatch hh)
    · intro hc0
      have hh := (hz hc0).2.2 t
      rw [hpc] at hh
      simp [TaskPC.preFactory] at hh
    · intro hc1
      rcases ho hc1 with hl2 | hex
      · exact Or.inl hl2
      · exact Or.inr (pendingWitness_preserved (by rw [hpc]; rfl) hex)
  | releasing w =>
    have hwv : w = v := hrv t w hpc
    have hstep : stepTask v s t = { s.setTask t (.done w) with lock := none } := by
      unfold stepTask; rw [hpc]
    rw [hstep]
    refine ⟨?_, ?_, h1v, h2v, ?_, ?_, ?_, hle, ?_, ?_⟩
    · exact holder_released hol (by rw [hpc]; rfl) rfl
    · intro u hl
      cases hl
    · exact copyVal_preserved hcv (fun w' hh => nomatch hh)
    · exact relVal_preserved hrv (fun w' hh => nomatch hh)
    · exact doneVal_preserved hdv (fun w' hh => by cases hh; exact hwv)
    · intro hc0
      have hh := (hz hc0).2.2 t
      rw [hpc] at hh
      simp [TaskPC.preFactory] at hh
    · intro hc1
      rcases ho hc1 with hl2 | hex
      · exact Or.inl hl2
      · exact Or.inr (pendingWitness_preserved (by rw [hpc]; rfl) hex)
  | done w =>
    have hstep : stepTask v s t = s := by
      unfold stepTask; rw [hpc]
    rw [hstep]
    exact ⟨hol, hlh, h1v, h2v, hcv, hrv, hdv, hle, hz, ho⟩

/-- Every reachable state of the concurrent model satisfies the
invariant. -/
theorem sysInv_run (n v : Nat) (sched : Nat → Fin n) (k : Nat) :
    SysInv n v (runSystem n v sched k) := by
  induction k with
  | zero => exact sysInv_init n v
  | succ k ih => exact sysInv_step ih (sched k)

/-- C8: stampede prevention in the cold-miss scenario.  For every number
of concurrent handle tasks, every factory value, every schedule and every
number of steps: at most one task is executing the foreground factory at
any instant (any two tasks at the factoryRunning counter coincide), every
task that has returned received the factory value, the factory was
invoked at most once, and as soon as any task has returned it was invoked
exactly once. -/
theorem C8_stampede_prevention (n v : Nat) (sched : Nat → Fin n) (k : Nat) :
    (∀ t u : Fin n, (runSystem n v sched k).tasks t = .factoryRunning →
        (runSystem n v sched k).tasks u = .factoryRunning → t = u) ∧
    (∀ (t : Fin n) (w : Nat), (runSystem n v sched k).tasks t = .done w → w = v) ∧
    (runSystem n v sched k).factoryCount ≤ 1 ∧
    ((∃ (t : Fin n) (w : Nat), (runSystem n v sched k).tasks t = .done w) →
      (runSystem n v sched k).factoryCount = 1) := by
  obtain ⟨hol, hlh, h1v, h2v, hcv, hrv, hdv, hle, hz, ho⟩ := sysInv_run n v sched k
  refine ⟨?_, hdv, hle, ?_⟩
  · intro t u ht hu
    have h1 := hol t (by rw [ht]; rfl)
    have h2 := hol u (by rw [hu]; rfl)
    rw [h1] at h2
    exact Option.some.inj h2
  · rintro ⟨t, w, ht⟩
    rcases Nat.eq_zero_or_pos (runSystem n v sched k).factoryCount with hc | hc
    · have hh := (hz hc).2.2 t
      rw [ht] at hh
      simp [TaskPC.preFactory] at hh
    · omega

/-- C8 witness: after 30 round-robin steps of two tasks with factory
value 7, a task has returned 7 and the theorem yields a factory count of
exactly one. -/
theorem C8_stampede_witness :
    (runSystem 2 7 rrSched 30).factoryCount = 1 :=
  (C8_stampede_prevention 2 7 rrSched 30).2.2.2 ⟨0, 7, by decide⟩

end Bentocache
